import Mathlib

/-!
Verification of `improved_note_detection.py` (oemer repository).

The script's only function, `detect_notes`, loads an image, runs a fixed
OpenCV pipeline (grayscale, Otsu threshold, staff-line removal, noise
cleanup, contour extraction), filters contours by area / aspect ratio /
bounding-box size, draws the surviving boxes, writes one annotated image
and returns the derived output path together with the box list.

The OpenCV primitives are external library calls, so they are carried as
abstract functions in an environment record `CvEnv`; everything written in
the Python file itself (control flow, the filter loop, the output-path
derivation, the CLI entry point) is embedded concretely below.
-/

/-- The pattern `".png"` searched for by
`image_path.replace(".png", "_detected.png")` (line 65 of the source). -/
def pngPat : List Char := ['.', 'p', 'n', 'g']

/-- The replacement `"_detected.png"` used on line 65 of the source. -/
def detectedPat : List Char :=
  ['_', 'd', 'e', 't', 'e', 'c', 't', 'e', 'd', '.', 'p', 'n', 'g']

/-- Python's `s.replace(".png", "_detected.png")`: replace every
non-overlapping occurrence of `".png"`, scanning left to right. -/
def replacePng : List Char → List Char
  | [] => []
  | [c] => [c]
  | [c, d] => [c, d]
  | [c, d, e] => [c, d, e]
  | c :: d :: e :: f :: rest =>
    if c = '.' ∧ d = 'p' ∧ e = 'n' ∧ f = 'g' then
      detectedPat ++ replacePng rest
    else
      c :: replacePng (d :: e :: f :: rest)

/-- `out_path = image_path.replace(".png", "_detected.png")` (line 65). -/
def outPath (p : String) : String :=
  String.mk (replacePng p.toList)

/-- The output path the SPEC describes (for comparison with the code's
`outPath`): a sibling path with `_detected` inserted before the file
extension, splitting at the last dot. -/
def specDerivedPath (p : String) : String :=
  let rev := p.toList.reverse
  let extRev := rev.takeWhile (fun c => c ≠ '.')
  let restRev := rev.dropWhile (fun c => c ≠ '.')
  match restRev with
  | [] => String.mk (p.toList ++ "_detected".toList)
  | _ :: stemRev =>
    String.mk (stemRev.reverse ++ "_detected".toList ++ '.' :: extRev.reverse)

lemma consExtendsOccurrence {c : Char} {p l : List Char} (h : p <:+: l) :
    p <:+: c :: l := by
  obtain ⟨s, t, rfl⟩ := h
  exact ⟨c :: s, t, rfl⟩

lemma replacePng_no_occurrence (l : List Char) (h : ¬ pngPat <:+: l) :
    replacePng l = l := by
  induction l using replacePng.induct with
  | case1 => rfl
  | case2 c => rfl
  | case3 c d => rfl
  | case4 c d e => rfl
  | case5 c d e f rest hc ih =>
    exact absurd ⟨[], rest, by simp [pngPat, hc.1, hc.2.1, hc.2.2.1, hc.2.2.2]⟩ h
  | case6 c d e f rest hc ih =>
    rw [replacePng, if_neg hc]
    have : ¬ pngPat <:+: d :: e :: f :: rest := fun hi => h (consExtendsOccurrence hi)
    rw [ih this]

lemma replacePng_pat : replacePng ['.', 'p', 'n', 'g'] = detectedPat := by
  decide

lemma replacePng_append_pat (l : List Char) (h : ¬ pngPat <:+: l) :
    replacePng (l ++ pngPat) = l ++ detectedPat := by
  induction l using replacePng.induct with
  | case1 => decide
  | case2 c =>
    show replacePng (c :: '.' :: 'p' :: 'n' :: ['g']) = c :: detectedPat
    rw [replacePng, if_neg (by simp), replacePng_pat]
  | case3 c d =>
    show replacePng (c :: d :: '.' :: 'p' :: 'n' :: ['g']) = c :: d :: detectedPat
    rw [replacePng, if_neg (by simp)]
    rw [replacePng, if_neg (by simp), replacePng_pat]
  | case4 c d e =>
    show replacePng (c :: d :: e :: '.' :: 'p' :: 'n' :: ['g'])
        = c :: d :: e :: detectedPat
    rw [replacePng, if_neg (by simp)]
    rw [replacePng, if_neg (by simp)]
    rw [replacePng, if_neg (by simp), replacePng_pat]
  | case5 c d e f rest hc ih =>
    exact absurd ⟨[], rest, by simp [pngPat, hc.1, hc.2.1, hc.2.2.1, hc.2.2.2]⟩ h
  | case6 c d e f rest hc ih =>
    show replacePng (c :: ((d :: e :: f :: rest) ++ pngPat))
        = c :: ((d :: e :: f :: rest) ++ detectedPat)
    rw [show (d :: e :: f :: rest) ++ pngPat
          = d :: e :: f :: (rest ++ pngPat) from rfl]
    rw [replacePng, if_neg hc]
    have : ¬ pngPat <:+: d :: e :: f :: rest := fun hi => h (consExtendsOccurrence hi)
    rw [show replacePng (d :: e :: f :: (rest ++ pngPat))
          = replacePng ((d :: e :: f :: rest) ++ pngPat) from rfl]
    rw [ih this]

/-- A bounding box `(x, y, w, h)` as returned by `cv2.boundingRect`. -/
abbrev BBox : Type := ℤ × ℤ × ℤ × ℤ

/-- The abstract OpenCV primitives used by `detect_notes`.  These are
external library calls, so they are fields of an environment record:
`detect_notes` is verified for every environment.  `contourArea` returns a
rational modelling the double returned by `cv2.contourArea`. -/
structure CvEnv (Img Gray Bin Contour : Type) where
  cvtColorBGR2GRAY : Img → Gray
  thresholdOtsuInv : Gray → Bin
  morphOpenRect25x1 : Bin → Bin
  subtract : Bin → Bin → Bin
  morphOpenEllipse3 : Bin → Bin
  morphCloseEllipse3Iter2 : Bin → Bin
  findContoursExternalSimple : Bin → List Contour
  boundingRect : Contour → BBox
  contourArea : Contour → ℚ
  rectangle : Img → ℤ × ℤ → ℤ × ℤ → ℤ × ℤ × ℤ → ℤ → Img

/-- The aspect ratio `aspect = w / float(h)` of line 51, with reals
modelled by rationals. -/
def aspectOf (w h : ℤ) : ℚ := (w : ℚ) / (h : ℚ)

/-- The filter loop of lines 47-60: walk the contours in discovery order,
`continue` past any contour failing the area, aspect-ratio or size test,
and append the bounding rectangle of each survivor. -/
def collectBoxes {Img Gray Bin Contour : Type} (env : CvEnv Img Gray Bin Contour) :
    List Contour → List BBox
  | [] => []
  | cnt :: rest =>
    let r := env.boundingRect cnt
    let area := env.contourArea cnt
    let aspect := aspectOf r.2.2.1 r.2.2.2
    if area < 30 then collectBoxes env rest
    else if ¬ (7/10 ≤ aspect ∧ aspect ≤ 13/10) then collectBoxes env rest
    else if r.2.2.1 < 5 ∨ r.2.2.2 < 5 ∨ 120 < r.2.2.1 ∨ 120 < r.2.2.2 then
      collectBoxes env rest
    else r :: collectBoxes env rest

/-- Lines 26-45: grayscale, Otsu binarisation, staff-line removal by
horizontal opening and subtraction, elliptical opening then closing, then
external-contour extraction on the cleaned mask. -/
def pipelineContours {Img Gray Bin Contour : Type}
    (env : CvEnv Img Gray Bin Contour) (img : Img) : List Contour :=
  let gray := env.cvtColorBGR2GRAY img
  let thresh := env.thresholdOtsuInv gray
  let staffLines := env.morphOpenRect25x1 thresh
  let noStaff := env.subtract thresh staffLines
  let cleaned := env.morphCloseEllipse3Iter2 (env.morphOpenEllipse3 noStaff)
  env.findContoursExternalSimple cleaned

/-- Lines 62-63: draw a green (0,255,0) rectangle of thickness 2 around
each retained box, mutating the colour image in list order. -/
def drawBoxes {Img Gray Bin Contour : Type}
    (env : CvEnv Img Gray Bin Contour) (img : Img) (bboxes : List BBox) : Img :=
  bboxes.foldl
    (fun im r => env.rectangle im (r.1, r.2.1) (r.1 + r.2.2.1, r.2.1 + r.2.2.2)
      (0, 255, 0) 2)
    img

/-- Observable outcome of one `detect_notes` call: the returned value (or
the raised error message) together with the log of `imwrite` calls. -/
structure RunResult (Img : Type) where
  result : Except String (String × List BBox)
  writes : List (String × Img)

/-- `detect_notes(image_path)` (lines 14-67).  `fs` models the file system
seen by `cv2.imread`; a `none` decode raises
`FileNotFoundError(f"Cannot read image: {image_path}")` at once. -/
def detectNotes {Img Gray Bin Contour : Type} (env : CvEnv Img Gray Bin Contour)
    (fs : String → Option Img) (imagePath : String) : RunResult Img :=
  match fs imagePath with
  | none => ⟨Except.error ("Cannot read image: " ++ imagePath), []⟩
  | some img =>
    let contours := pipelineContours env img
    let bboxes := collectBoxes env contours
    let annotated := drawBoxes env img bboxes
    let out := outPath imagePath
    ⟨Except.ok (out, bboxes), [(out, annotated)]⟩

/-- Outcome of running the script from the command line (lines 70-77):
either a `SystemExit` with a message and an exit status, or a completed
`detect_notes` call. -/
inductive MainResult (Img : Type) where
  | exited (msg : String) (code : ℕ)
  | detected (r : RunResult Img)

/-- The usage message of line 74. -/
def usageMsg : String := "Usage: python improved_note_detection.py <image>"

/-- The `__main__` block (lines 70-77): with fewer than two `argv` entries
raise `SystemExit(usage)` (exit status 1), otherwise call
`detect_notes(sys.argv[1])`. -/
def pyMain {Img Gray Bin Contour : Type} (env : CvEnv Img Gray Bin Contour)
    (fs : String → Option Img) : List String → MainResult Img
  | _prog :: path :: _ => MainResult.detected (detectNotes env fs path)
  | _ => MainResult.exited usageMsg 1

/-- Modelled from the spec: `cv2.boundingRect` of a contour, the minimal
upright rectangle containing the contour's pixel points — `x`/`y` are the
minimal coordinates and the width/height are the inclusive extents
`max − min + 1`.  The OpenCV implementation is not part of this
repository; this is its documented behaviour on a non-empty point list
(the `[]` case is junk, as `cv2.findContours` never yields an empty
contour). -/
def boundingRectPts : List (ℤ × ℤ) → BBox
  | [] => (0, 0, 0, 0)
  | p :: ps =>
    let xs := (p :: ps).map Prod.fst
    let ys := (p :: ps).map Prod.snd
    let x0 := xs.foldl min p.1
    let y0 := ys.foldl min p.2
    let x1 := xs.foldl max p.1
    let y1 := ys.foldl max p.2
    (x0, y0, x1 - x0 + 1, y1 - y0 + 1)

/-- The conjunction of the three tests of lines 53-58, phrased positively:
a contour survives the loop iff none of the three `continue`s fires. -/
def passesFilters {Img Gray Bin Contour : Type} (env : CvEnv Img Gray Bin Contour)
    (cnt : Contour) : Bool :=
  let r := env.boundingRect cnt
  decide (30 ≤ env.contourArea cnt
    ∧ (7/10 ≤ aspectOf r.2.2.1 r.2.2.2 ∧ aspectOf r.2.2.1 r.2.2.2 ≤ 13/10)
    ∧ (5 ≤ r.2.2.1 ∧ r.2.2.1 ≤ 120 ∧ 5 ≤ r.2.2.2 ∧ r.2.2.2 ≤ 120))

lemma collectBoxes_cons {Img Gray Bin Contour : Type}
    (env : CvEnv Img Gray Bin Contour) (cnt : Contour) (rest : List Contour) :
    collectBoxes env (cnt :: rest)
      = if passesFilters env cnt then
          env.boundingRect cnt :: collectBoxes env rest
        else collectBoxes env rest := by
  simp only [collectBoxes, passesFilters]
  by_cases h1 : env.contourArea cnt < 30
  · rw [if_pos h1, if_neg]
    simp only [decide_eq_true_eq]
    rintro ⟨h30, -, -⟩
    exact absurd h1 (not_lt.mpr h30)
  · rw [if_neg h1]
    by_cases h2 : 7/10 ≤ aspectOf (env.boundingRect cnt).2.2.1 (env.boundingRect cnt).2.2.2
        ∧ aspectOf (env.boundingRect cnt).2.2.1 (env.boundingRect cnt).2.2.2 ≤ 13/10
    · rw [if_neg (not_not_intro h2)]
      by_cases h3 : (env.boundingRect cnt).2.2.1 < 5 ∨ (env.boundingRect cnt).2.2.2 < 5
          ∨ 120 < (env.boundingRect cnt).2.2.1 ∨ 120 < (env.boundingRect cnt).2.2.2
      · rw [if_pos h3, if_neg]
        simp only [decide_eq_true_eq]
        rintro ⟨-, -, hs⟩
        omega
      · rw [if_neg h3, if_pos]
        simp only [decide_eq_true_eq]
        exact ⟨not_lt.mp h1, h2, by omega⟩
    · rw [if_pos h2, if_neg]
      simp only [decide_eq_true_eq]
      rintro ⟨-, hb, -⟩
      exact h2 hb

lemma collectBoxes_eq_filter_map {Img Gray Bin Contour : Type}
    (env : CvEnv Img Gray Bin Contour) (l : List Contour) :
    collectBoxes env l
      = (l.filter (fun c => passesFilters env c)).map env.boundingRect := by
  induction l with
  | nil => rfl
  | cons cnt rest ih =>
    rw [collectBoxes_cons, List.filter_cons]
    by_cases hp : passesFilters env cnt
    · rw [if_pos hp, if_pos hp, List.map_cons, ih]
    · rw [if_neg hp, if_neg hp, ih]

lemma mem_collectBoxes {Img Gray Bin Contour : Type}
    (env : CvEnv Img Gray Bin Contour) (l : List Contour) (b : BBox)
    (hb : b ∈ collectBoxes env l) :
    ∃ cnt, cnt ∈ l ∧ env.boundingRect cnt = b
      ∧ 30 ≤ env.contourArea cnt
      ∧ 7/10 ≤ aspectOf b.2.2.1 b.2.2.2 ∧ aspectOf b.2.2.1 b.2.2.2 ≤ 13/10
      ∧ 5 ≤ b.2.2.1 ∧ b.2.2.1 ≤ 120 ∧ 5 ≤ b.2.2.2 ∧ b.2.2.2 ≤ 120 := by
  rw [collectBoxes_eq_filter_map] at hb
  obtain ⟨cnt, hmem, hrect⟩ := List.mem_map.mp hb
  obtain ⟨hl, hpass⟩ := List.mem_filter.mp hmem
  simp only [passesFilters, decide_eq_true_eq] at hpass
  obtain ⟨h30, hband, hsz⟩ := hpass
  rw [hrect] at hband hsz
  exact ⟨cnt, hl, hrect, h30, hband.1, hband.2, hsz.1, hsz.2.1, hsz.2.2.1, hsz.2.2.2⟩

lemma foldl_min_le_init (a : ℤ) (l : List ℤ) : l.foldl min a ≤ a := by
  induction l generalizing a with
  | nil => exact le_refl a
  | cons b t ih =>
    rw [List.foldl_cons]
    exact le_trans (ih (min a b)) (min_le_left a b)

lemma init_le_foldl_max (a : ℤ) (l : List ℤ) : a ≤ l.foldl max a := by
  induction l generalizing a with
  | nil => exact le_refl a
  | cons b t ih =>
    rw [List.foldl_cons]
    exact le_trans (le_max_left a b) (ih (max a b))

/-- A concrete environment over trivial carrier types, used to exercise the
theorems below: contour extraction always finds one contour, whose
bounding rectangle is `(2, 3, 10, 10)` and whose area is `50`. -/
def unitEnv : CvEnv Unit Unit Unit Unit where
  cvtColorBGR2GRAY := fun _ => ()
  thresholdOtsuInv := fun _ => ()
  morphOpenRect25x1 := fun _ => ()
  subtract := fun _ _ => ()
  morphOpenEllipse3 := fun _ => ()
  morphCloseEllipse3Iter2 := fun _ => ()
  findContoursExternalSimple := fun _ => [()]
  boundingRect := fun _ => (2, 3, 10, 10)
  contourArea := fun _ => 50
  rectangle := fun i _ _ _ _ => i

/-- A file system on which every path decodes. -/
def fsSome : String → Option Unit := fun _ => some ()

/-- A file system on which no path decodes. -/
def fsNone : String → Option Unit := fun _ => none

/-- A second concrete file system, differing from `fsSome` away from the
paths the witnesses read. -/
def fsAlt : String → Option Unit := fun p => if p = "other.png" then none else some ()

/-- C2: if the image cannot be decoded (`cv2.imread` returns `None`),
`detect_notes` raises `FileNotFoundError` with the message of line 24 at
once, before any stage of the pipeline runs, and writes no file. -/
theorem c2_decode_failure_no_write {Img Gray Bin Contour : Type}
    (env : CvEnv Img Gray Bin Contour) (fs : String → Option Img) (path : String)
    (h : fs path = none) :
    detectNotes env fs path
      = ⟨Except.error ("Cannot read image: " ++ path), []⟩ := by
  simp [detectNotes, h]

/-- Witness for C2 at a concrete undecodable path. -/
theorem c2_decode_failure_no_write_witness :
    detectNotes unitEnv fsNone "missing.png"
      = ⟨Except.error ("Cannot read image: " ++ "missing.png"), []⟩ :=
  c2_decode_failure_no_write unitEnv fsNone "missing.png" rfl

/-- C5: `detect_notes` is deterministic — its outcome depends on the file
system only through the decode of the input path, so two invocations that
see the same (unmodified) input bytes return the identical output path,
box sequence and write log. -/
theorem c5_deterministic {Img Gray Bin Contour : Type}
    (env : CvEnv Img Gray Bin Contour) (fs₁ fs₂ : String → Option Img)
    (path : String) (h : fs₁ path = fs₂ path) :
    detectNotes env fs₁ path = detectNotes env fs₂ path := by
  unfold detectNotes
  rw [h]

/-- Witness for C5: two file systems agreeing on the input path. -/
theorem c5_deterministic_witness :
    detectNotes unitEnv fsSome "a.png" = detectNotes unitEnv fsAlt "a.png" :=
  c5_deterministic unitEnv fsSome fsAlt "a.png" (by decide)

/-- C6: a successful call performs exactly one write, at the derived
output path, with the annotated image; the write log holds nothing else. -/
theorem c6_exactly_one_write {Img Gray Bin Contour : Type}
    (env : CvEnv Img Gray Bin Contour) (fs : String → Option Img) (path : String)
    (img : Img) (h : fs path = some img) :
    (detectNotes env fs path).writes
      = [(outPath path,
          drawBoxes env img (collectBoxes env (pipelineContours env img)))] := by
  simp [detectNotes, h]

/-- Witness for C6 at a concrete decodable path. -/
theorem c6_exactly_one_write_witness :
    (detectNotes unitEnv fsSome "a.png").writes
      = [(outPath "a.png",
          drawBoxes unitEnv () (collectBoxes unitEnv (pipelineContours unitEnv ())))] :=
  c6_exactly_one_write unitEnv fsSome "a.png" () rfl

/-- C7: the returned box sequence is exactly the order-preserving
subsequence of the bounding rectangles of the extracted contours, keeping
those (and only those) contours that pass the area, aspect-ratio and size
filters. -/
theorem c7_discovery_order {Img Gray Bin Contour : Type}
    (env : CvEnv Img Gray Bin Contour) (fs : String → Option Img) (path : String)
    (img : Img) (h : fs path = some img) :
    (detectNotes env fs path).result
      = Except.ok (outPath path,
          ((pipelineContours env img).filter (fun c => passesFilters env c)).map
            env.boundingRect) := by
  simp [detectNotes, h, collectBoxes_eq_filter_map]

/-- Witness for C7 at a concrete decodable path. -/
theorem c7_discovery_order_witness :
    (detectNotes unitEnv fsSome "a.png").result
      = Except.ok (outPath "a.png",
          ((pipelineContours unitEnv ()).filter (fun c => passesFilters unitEnv c)).map
            unitEnv.boundingRect) :=
  c7_discovery_order unitEnv fsSome "a.png" () rfl

/-- C1: every bounding box in a successfully returned sequence comes from
an extracted contour that passes the active filter predicate — contour
area at least `30`, aspect ratio `w / h` inside the closed band
`[0.7, 1.3]`, and both `w` and `h` inside the closed range `[5, 120]`. -/
theorem c1_boxes_satisfy_filters {Img Gray Bin Contour : Type}
    (env : CvEnv Img Gray Bin Contour) (fs : String → Option Img) (path : String)
    (img : Img) (h : fs path = some img) (out : String) (bxs : List BBox)
    (hres : (detectNotes env fs path).result = Except.ok (out, bxs))
    (b : BBox) (hb : b ∈ bxs) :
    ∃ cnt, cnt ∈ pipelineContours env img ∧ env.boundingRect cnt = b
      ∧ 30 ≤ env.contourArea cnt
      ∧ 7/10 ≤ aspectOf b.2.2.1 b.2.2.2 ∧ aspectOf b.2.2.1 b.2.2.2 ≤ 13/10
      ∧ 5 ≤ b.2.2.1 ∧ b.2.2.1 ≤ 120 ∧ 5 ≤ b.2.2.2 ∧ b.2.2.2 ≤ 120 := by
  have hkey : (detectNotes env fs path).result
      = Except.ok (outPath path, collectBoxes env (pipelineContours env img)) := by
    simp [detectNotes, h]
  rw [hkey] at hres
  injection hres with hpair
  injection hpair with hout hbxs
  rw [← hbxs] at hb
  exact mem_collectBoxes env _ b hb

/-- Witness for C1: in `unitEnv` the single contour survives the filter,
and the theorem recovers it with its filter facts. -/
theorem c1_boxes_satisfy_filters_witness :
    ∃ cnt, cnt ∈ pipelineContours unitEnv () ∧ unitEnv.boundingRect cnt = ((2, 3, 10, 10) : BBox)
      ∧ 30 ≤ unitEnv.contourArea cnt
      ∧ 7/10 ≤ aspectOf 10 10 ∧ aspectOf 10 10 ≤ 13/10
      ∧ 5 ≤ (10:ℤ) ∧ (10:ℤ) ≤ 120 ∧ 5 ≤ (10:ℤ) ∧ (10:ℤ) ≤ 120 :=
  c1_boxes_satisfy_filters unitEnv fsSome "a.png" () rfl "a_detected.png"
    [(2, 3, 10, 10)] (by with_unfolding_all rfl) (2, 3, 10, 10) (by decide)

/-- C3 counterexample: for the input `"score.jpg"` the code's derived path
is the unchanged input, not the spec's sibling path with `_detected`
inserted before the extension. -/
theorem c3_counterexample :
    outPath "score.jpg" = "score.jpg"
      ∧ specDerivedPath "score.jpg" = "score_detected.jpg"
      ∧ outPath "score.jpg" ≠ specDerivedPath "score.jpg" := by
  decide

/-- C3 (amended): for every successfully processed input path that ends in
`".png"` and whose stem does not itself contain `".png"`, the output path
is the sibling path with `_detected` inserted before the extension. -/
theorem c3_amended_png_suffix (stem : String) (h : ¬ pngPat <:+: stem.toList) :
    outPath (stem ++ ".png") = stem ++ "_detected.png" := by
  apply String.ext
  show replacePng (stem ++ ".png").data = (stem ++ "_detected.png").data
  rw [String.data_append, String.data_append]
  have h4 : (".png" : String).data = pngPat := by decide
  have h5 : ("_detected.png" : String).data = detectedPat := by decide
  rw [h4, h5]
  exact replacePng_append_pat stem.data h

/-- Witness for the amended C3 at a concrete stem. -/
theorem c3_amended_png_suffix_witness :
    outPath ("score" ++ ".png") = "score" ++ "_detected.png" :=
  c3_amended_png_suffix "score" (by decide)

/-- C4: the output-path derivation is a substring replacement of every
occurrence of `".png"` by `"_detected.png"`; a path without `".png"` maps
to itself, so on such inputs the annotated image is written over the
original input file. -/
theorem c4_substring_replacement :
    (∀ p : String, ¬ pngPat <:+: p.toList → outPath p = p)
      ∧ outPath "a.png.png" = "a_detected.png_detected.png"
      ∧ (∀ (Img Gray Bin Contour : Type) (env : CvEnv Img Gray Bin Contour)
          (fs : String → Option Img) (path : String) (img : Img),
          fs path = some img → ¬ pngPat <:+: path.toList →
          (detectNotes env fs path).writes.map Prod.fst = [path]) := by
  refine ⟨?_, by decide, ?_⟩
  · intro p hp
    exact String.ext (replacePng_no_occurrence p.data hp)
  · intro Img Gray Bin Contour env fs path img h hp
    have hout : outPath path = path := String.ext (replacePng_no_occurrence path.data hp)
    simp [detectNotes, h, hout]

/-- Witness for C4: a `.jpg` path is left unchanged and is the single
write target, i.e. the input file is overwritten. -/
theorem c4_substring_replacement_witness :
    outPath "img.jpg" = "img.jpg"
      ∧ (detectNotes unitEnv fsSome "img.jpg").writes.map Prod.fst = ["img.jpg"] :=
  ⟨c4_substring_replacement.1 "img.jpg" (by decide),
   c4_substring_replacement.2.2 Unit Unit Unit Unit unitEnv fsSome "img.jpg" () rfl
     (by decide)⟩

/-- C8: invoked with no image-path argument (fewer than two `argv`
entries), the script terminates at once with the usage message and exit
status 1, and `detect_notes` is never called (no `detected` outcome). -/
theorem c8_usage_exit {Img Gray Bin Contour : Type}
    (env : CvEnv Img Gray Bin Contour) (fs : String → Option Img)
    (argv : List String) (h : argv.length < 2) :
    pyMain env fs argv = MainResult.exited usageMsg 1
      ∧ (1 : ℕ) ≠ 0
      ∧ ∀ r : RunResult Img, pyMain env fs argv ≠ MainResult.detected r := by
  match argv with
  | [] => exact ⟨rfl, one_ne_zero, fun r hr => MainResult.noConfusion hr⟩
  | [p] => exact ⟨rfl, one_ne_zero, fun r hr => MainResult.noConfusion hr⟩
  | a :: b :: t =>
    rw [List.length_cons, List.length_cons] at h
    omega

/-- Witness for C8 with only the program name in `argv`. -/
theorem c8_usage_exit_witness :
    pyMain unitEnv fsSome ["improved_note_detection.py"] = MainResult.exited usageMsg 1 :=
  (c8_usage_exit unitEnv fsSome ["improved_note_detection.py"] (by decide)).1

/-- C10: for every contour produced by contour extraction (a non-empty
pixel point list), the modelled `cv2.boundingRect` height is at least 1;
in particular its rational image is nonzero, so the denominator of
`aspect = w / float(h)` on line 51 is never zero. -/
theorem c10_height_positive (p : ℤ × ℤ) (ps : List (ℤ × ℤ)) :
    1 ≤ (boundingRectPts (p :: ps)).2.2.2
      ∧ ((boundingRectPts (p :: ps)).2.2.2 : ℚ) ≠ 0 := by
  have h1 : (boundingRectPts (p :: ps)).2.2.2
      = ((p :: ps).map Prod.snd).foldl max p.2
        - ((p :: ps).map Prod.snd).foldl min p.2 + 1 := rfl
  have hlo : ((p :: ps).map Prod.snd).foldl min p.2 ≤ p.2 := foldl_min_le_init _ _
  have hhi : p.2 ≤ ((p :: ps).map Prod.snd).foldl max p.2 := init_le_foldl_max _ _
  constructor
  · rw [h1]
    omega
  · rw [h1]
    exact_mod_cast (by omega :
      ((p :: ps).map Prod.snd).foldl max p.2
        - ((p :: ps).map Prod.snd).foldl min p.2 + 1 ≠ (0:ℤ))
